import Mathlib

/-!
Verification of the `mypv` package (my-PV home-automation library):
shallow embedding of the discovery codec (`mypv/discovery.py`), the
register store (`mypv/acthor/_registers.py`) and the capability model
(`mypv/acthor/_features.py`), together with proofs of the specified
properties.

Bytes are modelled as `Nat` values (< 256 where the Python type enforces
it), byte strings as `List Nat`, Python `float` results as `ℚ` (the
operations involved are exact), and fallible Python code as `Except`.
-/

set_option maxRecDepth 20000

instance {ε α : Type} [DecidableEq ε] [DecidableEq α] : DecidableEq (Except ε α) := fun x y =>
  match x, y with
  | .ok a, .ok b => if h : a = b then .isTrue (by rw [h]) else .isFalse (by simp [h])
  | .error a, .error b => if h : a = b then .isTrue (by rw [h]) else .isFalse (by simp [h])
  | .ok _, .error _ => .isFalse (by simp)
  | .error _, .ok _ => .isFalse (by simp)

/-- Python exceptions raised by the embedded register/feature code. -/
inductive PyError where
  | attributeError
  | indexError
  | valueError
  deriving DecidableEq, Repr

/-- Failure modes of `DiscoveryRequest.decode` / `DiscoveryReply.decode`.
In Python all are `ValueError` (or its subclass `UnicodeDecodeError`),
distinguished by message; the embedding keeps them apart. -/
inductive DecodeError where
  | invalidLength
  | checksumMismatch
  | unknownDeviceId
  | unicodeDecodeError
  deriving DecidableEq, Repr

/-- Failure modes of `DiscoveryReply.encode`: `str.encode("ascii")` raises
`UnicodeEncodeError` on a non-ASCII character, `int.to_bytes(2, "big")`
raises `OverflowError` for values outside `0..65535`, and assigning a
value outside `0..255` to a `bytearray` item raises `ValueError`. -/
inductive EncodeError where
  | unicodeEncodeError
  | overflowError
  | valueError
  deriving DecidableEq, Repr

/-- Python `int.to_bytes(2, "big")` for `n < 65536`. -/
def toBytesBig2 (n : Nat) : List Nat := [n / 256, n % 256]

/-- Python `int.to_bytes(2, "little")` for `n < 65536`. -/
def toBytesLittle2 (n : Nat) : List Nat := [n % 256, n / 256]

/-- Python `int.from_bytes(data, "big")` for a 2-byte slice. -/
def fromBytesBig2 (l : List Nat) : Nat := l.getD 0 0 * 256 + l.getD 1 0

/-- Python `int.from_bytes(data, "little")` for a 2-byte slice. -/
def fromBytesLittle2 (l : List Nat) : Nat := l.getD 0 0 + l.getD 1 0 * 256

/-- Python `bytearray` slice assignment `buf[i:j] = repl` (for
`0 ≤ i ≤ j ≤ len(buf)`): the elements at positions `[i, j)` are replaced
by `repl`, whose length may differ, growing or shrinking the buffer. -/
def setSlice (l : List Nat) (i j : Nat) (repl : List Nat) : List Nat :=
  l.take i ++ repl ++ l.drop j

/-- Python `bytes.ljust(n, pad)`: right-pad to length `n` (no-op when the
input is already at least `n` long). -/
def ljust (l : List Nat) (n : Nat) (pad : Nat) : List Nat :=
  l ++ List.replicate (n - l.length) pad

/-- Python `str.rstrip("\x00")`: drop trailing NUL characters. -/
def rstripZeros (l : List Nat) : List Nat :=
  (l.reverse.dropWhile (· = 0)).reverse

/-! ## CRC-16/Modbus

`mypv.discovery._crc16` delegates to `pymodbus.framer.rtu.FramerRTU.compute_CRC`,
the standard Modbus RTU CRC-16 (init `0xFFFF`, reflected polynomial
`0xA001`) whose result is returned byte-swapped. -/

/-- One bit step of the reflected CRC-16/Modbus update. -/
def crcBitStep (crc : Nat) : Nat :=
  if crc % 2 = 1 then (crc / 2) ^^^ 0xA001 else crc / 2

/-- Feed one byte into the CRC state: xor it in, then run 8 bit steps. -/
def crcByteStep (crc b : Nat) : Nat := crcBitStep^[8] (crc ^^^ b)

/-- The raw CRC-16/Modbus over a byte list, initial value `0xFFFF`. -/
def crcRaw (data : List Nat) : Nat := data.foldl crcByteStep 0xFFFF

/-- Swap the two bytes of a 16-bit value. -/
def byteSwap16 (x : Nat) : Nat := x % 256 * 256 + x / 256

/-- The function `FramerRTU.compute_CRC`: the raw Modbus CRC-16,
byte-swapped. -/
def crc16 (data : List Nat) : Nat := byteSwap16 (crcRaw data)

/-! ### Algebraic facts about the CRC update

The bit step is GF(2)-linear (xor-linear), the byte fold therefore
propagates a single-byte xor difference linearly, and the bit step is
injective on 16-bit states, so a single flipped bit always changes the
final CRC. -/

lemma xor_xor_cancel_right (x y c : Nat) : (x ^^^ c) ^^^ (y ^^^ c) = x ^^^ y := by
  rw [Nat.xor_comm y c, ← Nat.xor_assoc, Nat.xor_assoc x c c, Nat.xor_self, Nat.xor_zero]

lemma xor_right_comm (x y z : Nat) : (x ^^^ y) ^^^ z = (x ^^^ z) ^^^ y := by
  rw [Nat.xor_assoc, Nat.xor_comm y z, ← Nat.xor_assoc]

lemma xor_eq_self_iff {u d : Nat} : u ^^^ d = u ↔ d = 0 := by
  constructor
  · intro h
    have h2 : u ^^^ (u ^^^ d) = u ^^^ u := by rw [h]
    rwa [← Nat.xor_assoc, Nat.xor_self, Nat.zero_xor] at h2
  · intro h
    rw [h, Nat.xor_zero]

/-- Parity of an xor. -/
lemma xor_mod_two (a b : Nat) : (a ^^^ b) % 2 = (a % 2 + b % 2) % 2 := by
  have h0 := Nat.testBit_xor a b 0
  simp only [Nat.testBit_zero] at h0
  rcases Nat.mod_two_eq_zero_or_one a with ha | ha <;>
    rcases Nat.mod_two_eq_zero_or_one b with hb | hb <;>
      simp [ha, hb] at h0 ⊢ <;> omega

/-- The CRC bit step is xor-linear. -/
lemma crcBitStep_xor (a b : Nat) : crcBitStep (a ^^^ b) = crcBitStep a ^^^ crcBitStep b := by
  have hab := xor_mod_two a b
  rcases Nat.mod_two_eq_zero_or_one a with ha | ha <;>
    rcases Nat.mod_two_eq_zero_or_one b with hb | hb
  · rw [crcBitStep, crcBitStep, crcBitStep, if_neg (by omega), if_neg (by omega),
      if_neg (by omega), Nat.xor_div_two]
  · rw [crcBitStep, crcBitStep, crcBitStep, if_pos (by omega), if_neg (by omega),
      if_pos (by omega), Nat.xor_div_two, Nat.xor_assoc]
  · rw [crcBitStep, crcBitStep, crcBitStep, if_pos (by omega), if_pos (by omega),
      if_neg (by omega), Nat.xor_div_two, xor_right_comm]
  · rw [crcBitStep, crcBitStep, crcBitStep, if_neg (by omega), if_pos (by omega),
      if_pos (by omega), Nat.xor_div_two, xor_xor_cancel_right]

lemma iterate_crcBitStep_xor (n a b : Nat) :
    crcBitStep^[n] (a ^^^ b) = crcBitStep^[n] a ^^^ crcBitStep^[n] b := by
  induction n generalizing a b with
  | zero => simp
  | succ n ih => rw [Function.iterate_succ_apply, Function.iterate_succ_apply,
      Function.iterate_succ_apply, crcBitStep_xor, ih]

/-- A byte-step with a xored-in difference `d` on the byte. -/
lemma crcByteStep_xor_byte (c b d : Nat) :
    crcByteStep c (b ^^^ d) = crcByteStep c b ^^^ crcBitStep^[8] d := by
  rw [crcByteStep, crcByteStep, ← Nat.xor_assoc, iterate_crcBitStep_xor]

/-- Folding the tail of the data over a state xored with a difference
`d`: the difference propagates through `8 * length` more bit steps. -/
lemma foldl_crcByteStep_xor (t : List Nat) : ∀ u d : Nat,
    t.foldl crcByteStep (u ^^^ d) = t.foldl crcByteStep u ^^^ crcBitStep^[8 * t.length] d := by
  induction t with
  | nil => intro u d; simp
  | cons b t ih =>
    intro u d
    have hstep : crcByteStep (u ^^^ d) b = crcByteStep u b ^^^ crcBitStep^[8] d := by
      rw [crcByteStep, crcByteStep, xor_right_comm, iterate_crcBitStep_xor]
    rw [List.foldl_cons, List.foldl_cons, hstep, ih]
    have hlen : 8 * (b :: t).length = 8 * t.length + 8 := by
      rw [List.length_cons, Nat.mul_succ]
    rw [hlen, Function.iterate_add_apply]

lemma crcBitStep_lt {d : Nat} (h : d < 65536) : crcBitStep d < 65536 := by
  rw [crcBitStep]
  split_ifs
  · have h1 : d / 2 < 2 ^ 16 := by omega
    have h2 : (40961 : Nat) < 2 ^ 16 := by norm_num
    calc d / 2 ^^^ 0xA001 < 2 ^ 16 := Nat.xor_lt_two_pow h1 h2
      _ = 65536 := by norm_num
  · omega

lemma crcBitStep_ne_zero {d : Nat} (h0 : d ≠ 0) (h : d < 65536) : crcBitStep d ≠ 0 := by
  rw [crcBitStep]
  split_ifs with hp
  · intro hc
    have h1 : (d / 2).testBit 15 = false :=
      Nat.testBit_lt_two_pow (by omega : d / 2 < 2 ^ 15)
    have ht : (d / 2 ^^^ 0xA001).testBit 15 = true := by
      rw [Nat.testBit_xor, h1]
      decide
    rw [hc] at ht
    simp at ht
  · omega

lemma iterate_crcBitStep_pres (n : Nat) : ∀ d : Nat, d ≠ 0 → d < 65536 →
    crcBitStep^[n] d ≠ 0 ∧ crcBitStep^[n] d < 65536 := by
  induction n with
  | zero => intro d h0 h; simpa using ⟨h0, h⟩
  | succ n ih =>
    intro d h0 h
    rw [Function.iterate_succ_apply]
    exact ih _ (crcBitStep_ne_zero h0 h) (crcBitStep_lt h)

lemma iterate_crcBitStep_lt (n : Nat) : ∀ d : Nat, d < 65536 → crcBitStep^[n] d < 65536 := by
  induction n with
  | zero => intro d h; simpa using h
  | succ n ih =>
    intro d h
    rw [Function.iterate_succ_apply]
    exact ih _ (crcBitStep_lt h)

/-- Flipping bit `j` of byte `i` of the data changes the CRC fold, from
any starting state. -/
lemma foldl_crcByteStep_flip_ne (l : List Nat) : ∀ (c i j : Nat), i < l.length → j < 16 →
    (l.set i (l.getD i 0 ^^^ 2 ^ j)).foldl crcByteStep c ≠ l.foldl crcByteStep c := by
  induction l with
  | nil => intro c i j hi _; simp at hi
  | cons b t ih =>
    intro c i j hi hj
    have hpow0 : (2 : Nat) ^ j ≠ 0 := by positivity
    have hpowlt : (2 : Nat) ^ j < 65536 := by
      calc (2 : Nat) ^ j < 2 ^ 16 := Nat.pow_lt_pow_right (by norm_num) hj
        _ = 65536 := by norm_num
    cases i with
    | zero =>
      simp only [List.set_cons_zero, List.getD_cons_zero, List.foldl_cons]
      rw [crcByteStep_xor_byte, foldl_crcByteStep_xor]
      intro hc
      have hd := xor_eq_self_iff.mp hc
      rw [← Function.iterate_add_apply] at hd
      exact (iterate_crcBitStep_pres _ _ hpow0 hpowlt).1 hd
    | succ i =>
      simp only [List.set_cons_succ, List.getD_cons_succ, List.foldl_cons]
      exact ih (crcByteStep c b) i j (by simpa using hi) hj

lemma foldl_crcByteStep_lt (l : List Nat) : ∀ c : Nat, c < 65536 → (∀ b ∈ l, b < 65536) →
    l.foldl crcByteStep c < 65536 := by
  induction l with
  | nil => intro c hc _; simpa using hc
  | cons b t ih =>
    intro c hc hb
    rw [List.foldl_cons]
    apply ih
    · rw [crcByteStep]
      apply iterate_crcBitStep_lt
      have hb0 : b < 65536 := hb b (by simp)
      calc c ^^^ b < 2 ^ 16 := Nat.xor_lt_two_pow (by omega) (by omega)
        _ = 65536 := by norm_num
    · intro y hy
      exact hb y (by simp [hy])

lemma crcRaw_lt {l : List Nat} (hb : ∀ b ∈ l, b < 65536) : crcRaw l < 65536 :=
  foldl_crcByteStep_lt l 0xFFFF (by norm_num) hb

lemma byteSwap16_lt {x : Nat} (h : x < 65536) : byteSwap16 x < 65536 := by
  rw [byteSwap16]; omega

lemma byteSwap16_inj {x y : Nat} (hx : x < 65536) (hy : y < 65536)
    (h : byteSwap16 x = byteSwap16 y) : x = y := by
  rw [byteSwap16, byteSwap16] at h; omega

lemma crc16_lt {l : List Nat} (hb : ∀ b ∈ l, b < 65536) : crc16 l < 65536 :=
  byteSwap16_lt (crcRaw_lt hb)

lemma getD_lt (l : List Nat) : ∀ i : Nat, (∀ b ∈ l, b < 65536) → l.getD i 0 < 65536 := by
  induction l with
  | nil => intro i _; simp [List.getD]
  | cons b t ih =>
    intro i hb
    cases i with
    | zero => exact hb b (by simp)
    | succ i => exact ih i fun y hy => hb y (by simp [hy])

lemma set_bytes_lt (l : List Nat) : ∀ (i v : Nat), v < 65536 → (∀ b ∈ l, b < 65536) →
    ∀ b ∈ l.set i v, b < 65536 := by
  induction l with
  | nil => intro i v _ _ b hb; simp at hb
  | cons a t ih =>
    intro i v hv ha b hb
    cases i with
    | zero =>
      rcases (by simpa using hb : b = v ∨ b ∈ t) with h | h
      · omega
      · exact ha b (by simp [h])
    | succ i =>
      rcases (by simpa using hb : b = a ∨ b ∈ t.set i v) with h | h
      · exact ha b (by simp [h])
      · exact ih i v hv (fun y hy => ha y (by simp [hy])) b h

/-- Flipping any bit of the data changes `crc16` (for 16-bit-bounded
byte values, which the actual byte strings satisfy). -/
lemma crc16_flip_ne (l : List Nat) (i j : Nat) (hi : i < l.length) (hj : j < 16)
    (hb : ∀ b ∈ l, b < 65536) :
    crc16 (l.set i (l.getD i 0 ^^^ 2 ^ j)) ≠ crc16 l := by
  intro hc
  have hpowlt : (2 : Nat) ^ j < 65536 := by
    calc (2 : Nat) ^ j < 2 ^ 16 := Nat.pow_lt_pow_right (by norm_num) hj
      _ = 65536 := by norm_num
  have hv : l.getD i 0 ^^^ 2 ^ j < 65536 := by
    have h1 : l.getD i 0 < 65536 := getD_lt l i hb
    calc l.getD i 0 ^^^ 2 ^ j < 2 ^ 16 := Nat.xor_lt_two_pow (by omega) (by omega)
      _ = 65536 := by norm_num
  have h1 : crcRaw (l.set i (l.getD i 0 ^^^ 2 ^ j)) < 65536 :=
    crcRaw_lt (set_bytes_lt l i _ hv hb)
  have h2 : crcRaw l < 65536 := crcRaw_lt hb
  exact foldl_crcByteStep_flip_ne l 0xFFFF i j hi hj (byteSwap16_inj h1 h2 hc)

/-! ## Device identification -/

/-- The `DeviceIdentification` enum of `mypv/discovery.py`. -/
inductive DeviceIdentification where
  | AC_THOR_9S
  | AC_THOR
  | MY_PV_METER
  | AC_ELWA_2
  | AC_ELWA_E
  deriving DecidableEq, Repr

/-- Integer code of each `DeviceIdentification` member. -/
def DeviceIdentification.value : DeviceIdentification → Nat
  | .AC_THOR_9S => 0x4F4C
  | .AC_THOR => 0x4E84
  | .MY_PV_METER => 0x4E8E
  | .AC_ELWA_2 => 0x3F16
  | .AC_ELWA_E => 0x3EFC

/-- ASCII bytes of `_DEVICE_NAMES[id]`: "AC-THOR 9S", "AC-THOR",
"my-PV Meter", "AC ELWA 2", "AC ELWA-E". -/
def DeviceIdentification.device_name : DeviceIdentification → List Nat
  | .AC_THOR_9S => [65, 67, 45, 84, 72, 79, 82, 32, 57, 83]
  | .AC_THOR => [65, 67, 45, 84, 72, 79, 82]
  | .MY_PV_METER => [109, 121, 45, 80, 86, 32, 77, 101, 116, 101, 114]
  | .AC_ELWA_2 => [65, 67, 32, 69, 76, 87, 65, 32, 50]
  | .AC_ELWA_E => [65, 67, 32, 69, 76, 87, 65, 45, 69]

/-- The enum lookup `DeviceIdentification(value)`, `none` on an unknown
code (Python raises `ValueError`). -/
def DeviceIdentification.fromValue (v : Nat) : Option DeviceIdentification :=
  if v = 0x4F4C then some .AC_THOR_9S
  else if v = 0x4E84 then some .AC_THOR
  else if v = 0x4E8E then some .MY_PV_METER
  else if v = 0x3F16 then some .AC_ELWA_2
  else if v = 0x3EFC then some .AC_ELWA_E
  else none

/-! ## DiscoveryRequest -/

/-- The `DiscoveryRequest` dataclass: its only field is the device id. -/
structure DiscoveryRequest where
  device_id : DeviceIdentification
  deriving DecidableEq, Repr

/-- The class constant `DiscoveryRequest.LENGTH = 32`. -/
def DiscoveryRequest.LENGTH : Nat := 32

/-- The body of `DiscoveryRequest.encode`: a 32-byte zero buffer, the id
big-endian at offset 2, the ASCII device name from offset 4, and the CRC
of bytes `2..` little-endian at offset 0. Never raises. -/
def DiscoveryRequest.encode (x : DiscoveryRequest) : List Nat :=
  let buf := List.replicate DiscoveryRequest.LENGTH 0
  let buf := setSlice buf 2 4 (toBytesBig2 x.device_id.value)
  let name_bytes := x.device_id.device_name
  let buf := setSlice buf 4 (4 + name_bytes.length) name_bytes
  let crc := crc16 (buf.drop 2)
  setSlice buf 0 2 (toBytesLittle2 crc)

/-- The body of `DiscoveryRequest.decode`: length check, CRC check, then
enum lookup of the big-endian id at offset 2. -/
def DiscoveryRequest.decode (data : List Nat) : Except DecodeError DiscoveryRequest :=
  if data.length ≠ DiscoveryRequest.LENGTH then .error .invalidLength
  else
    let crc := fromBytesLittle2 (data.take 2)
    let calculated_crc := crc16 (data.drop 2)
    if crc ≠ calculated_crc then .error .checksumMismatch
    else
      match DeviceIdentification.fromValue (fromBytesBig2 ((data.drop 2).take 2)) with
      | some dev_id => .ok ⟨dev_id⟩
      | none => .error .unknownDeviceId

/-! ## DiscoveryReply -/

/-- Python's `ipaddress.IPv4Address`, as its four packed bytes (the Python
type guarantees each is in `0..255`). -/
structure IPv4Address where
  a : Nat
  b : Nat
  c : Nat
  d : Nat
  deriving DecidableEq, Repr

/-- The property `IPv4Address.packed`: the four address bytes. -/
def IPv4Address.packed (ip : IPv4Address) : List Nat := [ip.a, ip.b, ip.c, ip.d]

/-- Rebuild an `IPv4Address` from a 4-byte slice, as `IPv4Address(data[4:8])`. -/
def bytesToIPv4 (l : List Nat) : IPv4Address :=
  ⟨l.getD 0 0, l.getD 1 0, l.getD 2 0, l.getD 3 0⟩

/-- The `DiscoveryReply` dataclass. The serial number (a Python `str`) is
modelled as its list of character code points. -/
structure DiscoveryReply where
  device_id : DeviceIdentification
  addr : IPv4Address
  serial_number : List Nat
  firmware_version : Nat
  elwa_number : Nat
  deriving DecidableEq, Repr

/-- The class constant `DiscoveryReply.LENGTH = 64`. -/
def DiscoveryReply.LENGTH : Nat := 64

/-- The body of `DiscoveryReply.encode`: a 64-byte zero buffer; id
big-endian at 2, packed address at 4, the ASCII serial number
NUL-padded to 16 bytes assigned to slice `8:24` (a serial longer than 16
bytes makes this slice assignment grow the buffer), firmware version
big-endian at `24:26`, elwa number at 26, CRC of bytes `2..`
little-endian at 0. The three guards reproduce, in source order, the
exceptions Python would raise while building the buffer. -/
def DiscoveryReply.encode (x : DiscoveryReply) : Except EncodeError (List Nat) :=
  if ¬ x.serial_number.all (· < 128) then .error .unicodeEncodeError
  else if x.firmware_version ≥ 65536 then .error .overflowError
  else if x.elwa_number ≥ 256 then .error .valueError
  else
    let buf := List.replicate DiscoveryReply.LENGTH 0
    let buf := setSlice buf 2 4 (toBytesBig2 x.device_id.value)
    let buf := setSlice buf 4 8 x.addr.packed
    let buf := setSlice buf 8 24 (ljust x.serial_number 16 0)
    let buf := setSlice buf 24 26 (toBytesBig2 x.firmware_version)
    let buf := buf.set 26 x.elwa_number
    let crc := crc16 (buf.drop 2)
    .ok (setSlice buf 0 2 (toBytesLittle2 crc))

/-- The body of `DiscoveryReply.decode`: length check, CRC check, ASCII
decode of the serial bytes (a byte ≥ 128 raises `UnicodeDecodeError`,
which happens before the id enum lookup), NUL-stripping of the serial,
then field extraction. -/
def DiscoveryReply.decode (data : List Nat) : Except DecodeError DiscoveryReply :=
  if data.length ≠ DiscoveryReply.LENGTH then .error .invalidLength
  else
    let crc := fromBytesLittle2 (data.take 2)
    let calculated_crc := crc16 (data.drop 2)
    if crc ≠ calculated_crc then .error .checksumMismatch
    else if ¬ ((data.drop 8).take 16).all (· < 128) then .error .unicodeDecodeError
    else
      match DeviceIdentification.fromValue (fromBytesBig2 ((data.drop 2).take 2)) with
      | some dev_id =>
          .ok
            { device_id := dev_id
              addr := bytesToIPv4 ((data.drop 4).take 4)
              serial_number := rstripZeros ((data.drop 8).take 16)
              firmware_version := fromBytesBig2 ((data.drop 24).take 2)
              elwa_number := (data.drop 26).headD 0 }
      | none => .error .unknownDeviceId

/-- Flip bit `k` of a byte string: xor bit `k % 8` of byte `k / 8`. -/
def flipBit (l : List Nat) (k : Nat) : List Nat :=
  l.set (k / 8) (l.getD (k / 8) 0 ^^^ 2 ^ (k % 8))

/-! ### Frame-shape lemmas -/

/-- Slice assignment that replaces exactly the middle chunk of a
three-part concatenation. -/
lemma setSlice_exact {p q rest : List Nat} (repl : List Nat) {i j : Nat}
    (hp : p.length = i) (hq : j = i + q.length) :
    setSlice (p ++ q ++ rest) i j repl = p ++ repl ++ rest := by
  rw [setSlice]
  have h1 : (p ++ q ++ rest).take i = p := by
    rw [List.append_assoc]
    exact List.take_left' hp
  have h2 : (p ++ q ++ rest).drop j = rest := List.drop_left' (by simp [hp, hq])
  rw [h1, h2]

lemma setSlice_length (l : List Nat) (i j : Nat) (r : List Nat) :
    (setSlice l i j r).length = min i l.length + r.length + (l.length - j) := by
  simp [setSlice]
  omega

lemma fromLittle2_toLittle2 (c : Nat) : fromBytesLittle2 (toBytesLittle2 c) = c := by
  simp [fromBytesLittle2, toBytesLittle2]
  omega

lemma fromBig2_toBig2 (v : Nat) : fromBytesBig2 (toBytesBig2 v) = v := by
  simp [fromBytesBig2, toBytesBig2]
  omega

/-- The CRC-covered part (bytes `2..`) of an encoded discovery request:
id, name, zero padding to 30 bytes. -/
def requestPayload (id : DeviceIdentification) : List Nat :=
  toBytesBig2 id.value ++ id.device_name ++ List.replicate (28 - id.device_name.length) 0

lemma encodeRequest_eq (id : DeviceIdentification) :
    DiscoveryRequest.encode ⟨id⟩ =
      toBytesLittle2 (crc16 (requestPayload id)) ++ requestPayload id := by
  cases id <;> rfl

lemma requestPayload_bytes (id : DeviceIdentification) : ∀ b ∈ requestPayload id, b < 65536 := by
  cases id <;> decide

lemma requestPayload_length (id : DeviceIdentification) : (requestPayload id).length = 30 := by
  cases id <;> rfl

/-- A bit flip at position `k ≥ 16` leaves the two CRC bytes alone and
flips one bit of byte `k / 8 - 2` of the payload. -/
lemma flip_frame_parts (payload : List Nat) (c0 c1 : Nat) (k : Nat) (hk : 16 ≤ k) :
    flipBit (c0 :: c1 :: payload) k =
      c0 :: c1 :: payload.set (k / 8 - 2) (payload.getD (k / 8 - 2) 0 ^^^ 2 ^ (k % 8)) := by
  have hm : k / 8 = (k / 8 - 2) + 1 + 1 := by omega
  rw [flipBit, hm]
  simp

/-- Core of the bit-flip property: on a frame made of a little-endian
CRC followed by the CRC-covered payload, flipping any bit from position
16 on preserves the length and makes the recomputed CRC of bytes `2..`
disagree with the stored CRC at offset 0. -/
lemma decode_flip_core (payload : List Nat) (k : Nat) (hb : ∀ b ∈ payload, b < 65536)
    (hk : 16 ≤ k) (hk2 : k < 8 * (2 + payload.length)) :
    crc16 ((flipBit (toBytesLittle2 (crc16 payload) ++ payload) k).drop 2) ≠
      fromBytesLittle2 ((flipBit (toBytesLittle2 (crc16 payload) ++ payload) k).take 2) ∧
    (flipBit (toBytesLittle2 (crc16 payload) ++ payload) k).length = 2 + payload.length := by
  have hcons : toBytesLittle2 (crc16 payload) ++ payload =
      crc16 payload % 256 :: crc16 payload / 256 :: payload := rfl
  have hclt : crc16 payload < 65536 := crc16_lt hb
  rw [hcons, flip_frame_parts payload _ _ k hk]
  have hfrom : fromBytesLittle2 [crc16 payload % 256, crc16 payload / 256] = crc16 payload := by
    simp [fromBytesLittle2]
    omega
  constructor
  · simp only [List.take_succ_cons, List.take_zero, List.drop_succ_cons, List.drop_zero]
    rw [hfrom]
    exact crc16_flip_ne payload (k / 8 - 2) (k % 8) (by omega) (by omega) hb
  · simp
    omega

/-- Decoding any validly encoded request with one payload bit flipped
fails with the checksum-mismatch error. -/
lemma decodeRequest_flip (id : DeviceIdentification) (k : Nat) (hk : 16 ≤ k) (hk2 : k < 256) :
    DiscoveryRequest.decode (flipBit (DiscoveryRequest.encode ⟨id⟩) k) =
      .error .checksumMismatch := by
  rw [encodeRequest_eq]
  have hb := requestPayload_bytes id
  have hlen := requestPayload_length id
  have hcore := decode_flip_core (requestPayload id) k hb hk (by omega)
  simp only [DiscoveryRequest.decode, DiscoveryRequest.LENGTH]
  rw [if_neg (by rw [hcore.2, hlen]; decide), if_pos (Ne.symm hcore.1)]

/-! ### Reply frame normal form -/

lemma fromValue_value (id : DeviceIdentification) :
    DeviceIdentification.fromValue id.value = some id := by
  cases id <;> rfl

/-- The CRC-covered part (bytes `2..`) of an encoded discovery reply:
id, address, padded serial, firmware version, elwa number, 37 reserved
zero bytes. -/
def replyPayload (x : DiscoveryReply) : List Nat :=
  toBytesBig2 x.device_id.value ++ x.addr.packed ++ ljust x.serial_number 16 0 ++
    toBytesBig2 x.firmware_version ++ x.elwa_number :: List.replicate 37 0

lemma ljust_length {s : List Nat} (h : s.length ≤ 16) : (ljust s 16 0).length = 16 := by
  simp [ljust]
  omega

/-- Single-item assignment right after a known-length block. -/
lemma set_at_append {p : List Nat} {i : Nat} (a v : Nat) (t : List Nat) (h : p.length = i) :
    (p ++ a :: t).set i v = p ++ v :: t := by
  subst h
  rw [List.set_append_right _ _ (le_refl _), Nat.sub_self, List.set_cons_zero]

/-- The buffer built by `DiscoveryReply.encode` before the CRC is
written, for an in-range serial number: two zero CRC placeholder bytes
followed by the payload. -/
lemma replyBuffer_eq (x : DiscoveryReply) (hlen : x.serial_number.length ≤ 16) :
    (setSlice (setSlice (setSlice (setSlice (List.replicate 64 0) 2 4
        (toBytesBig2 x.device_id.value)) 4 8 x.addr.packed) 8 24
        (ljust x.serial_number 16 0)) 24 26 (toBytesBig2 x.firmware_version)).set 26
        x.elwa_number =
      List.replicate 2 0 ++ replyPayload x := by
  have hpad : (ljust x.serial_number 16 0).length = 16 := ljust_length hlen
  have e1 : (List.replicate 64 0 : List Nat) =
      List.replicate 2 0 ++ List.replicate 2 0 ++ List.replicate 60 0 := by decide
  rw [e1, setSlice_exact _ (by simp) (by simp)]
  have e2 : (List.replicate 60 0 : List Nat) = List.replicate 4 0 ++ List.replicate 56 0 := by
    decide
  rw [e2, ← List.append_assoc, setSlice_exact _ (by simp [toBytesBig2]) (by simp)]
  have e3 : (List.replicate 56 0 : List Nat) = List.replicate 16 0 ++ List.replicate 40 0 := by
    decide
  rw [e3, ← List.append_assoc,
    setSlice_exact _ (by simp [toBytesBig2, IPv4Address.packed]) (by simp)]
  have e4 : (List.replicate 40 0 : List Nat) = List.replicate 2 0 ++ List.replicate 38 0 := by
    decide
  rw [e4, ← List.append_assoc,
    setSlice_exact _ (by simp [toBytesBig2, IPv4Address.packed, hpad]) (by simp)]
  have e5 : (List.replicate 38 0 : List Nat) = 0 :: List.replicate 37 0 := rfl
  rw [e5, set_at_append _ _ _ (by simp [toBytesBig2, IPv4Address.packed, hpad])]
  simp [replyPayload, List.append_assoc]

/-- Encoding a reply with in-range fields yields the little-endian CRC
followed by the payload. -/
lemma encodeReply_ok (x : DiscoveryReply) (hser : x.serial_number.all (· < 128) = true)
    (hlen : x.serial_number.length ≤ 16) (hfw : x.firmware_version < 65536)
    (hel : x.elwa_number < 256) :
    DiscoveryReply.encode x =
      .ok (toBytesLittle2 (crc16 (replyPayload x)) ++ replyPayload x) := by
  rw [DiscoveryReply.encode, if_neg (by simp [hser]), if_neg (by omega), if_neg (by omega)]
  simp only [DiscoveryReply.LENGTH]
  rw [replyBuffer_eq x hlen]
  have hdrop : (List.replicate 2 0 ++ replyPayload x).drop 2 = replyPayload x :=
    List.drop_left' (by simp)
  rw [hdrop]
  have hset : setSlice (List.replicate 2 0 ++ replyPayload x) 0 2
      (toBytesLittle2 (crc16 (replyPayload x))) =
      toBytesLittle2 (crc16 (replyPayload x)) ++ replyPayload x := by
    rw [setSlice, List.take_zero, List.nil_append, hdrop]
  rw [hset]

lemma dropWhile_zero_replicate (k : Nat) (l : List Nat) :
    (List.replicate k 0 ++ l).dropWhile (· = 0) = l.dropWhile (· = 0) := by
  induction k with
  | zero => simp
  | succ k ih => simp [List.replicate_succ, ih]

lemma rstripZeros_append_zeros (s : List Nat) (k : Nat) :
    rstripZeros (s ++ List.replicate k 0) = rstripZeros s := by
  rw [rstripZeros, rstripZeros, List.reverse_append, List.reverse_replicate,
    dropWhile_zero_replicate]

/-- Decoding the canonical encoded form of an in-range reply recovers
the reply. -/
lemma decodeReply_frame (x : DiscoveryReply) (hser : x.serial_number.all (· < 128) = true)
    (hlen : x.serial_number.length ≤ 16)
    (hstrip : rstripZeros x.serial_number = x.serial_number) :
    DiscoveryReply.decode (toBytesLittle2 (crc16 (replyPayload x)) ++ replyPayload x) =
      .ok x := by
  have hpad : (ljust x.serial_number 16 0).length = 16 := ljust_length hlen
  have hcons : toBytesLittle2 (crc16 (replyPayload x)) ++ replyPayload x =
      crc16 (replyPayload x) % 256 :: crc16 (replyPayload x) / 256 :: replyPayload x := rfl
  have hplen : (replyPayload x).length = 62 := by
    simp [replyPayload, toBytesBig2, IPv4Address.packed, hpad]
  -- payload regroupings for the field slices
  have g2 : replyPayload x = toBytesBig2 x.device_id.value ++
      (x.addr.packed ++ (ljust x.serial_number 16 0 ++ (toBytesBig2 x.firmware_version ++
        x.elwa_number :: List.replicate 37 0))) := by
    simp [replyPayload, List.append_assoc]
  have g6 : replyPayload x = (toBytesBig2 x.device_id.value ++ x.addr.packed) ++
      (ljust x.serial_number 16 0 ++ (toBytesBig2 x.firmware_version ++
        x.elwa_number :: List.replicate 37 0)) := by
    simp [replyPayload, List.append_assoc]
  have g22 : replyPayload x = ((toBytesBig2 x.device_id.value ++ x.addr.packed) ++
      ljust x.serial_number 16 0) ++ (toBytesBig2 x.firmware_version ++
        x.elwa_number :: List.replicate 37 0) := by
    simp [replyPayload, List.append_assoc]
  have g24 : replyPayload x = (((toBytesBig2 x.device_id.value ++ x.addr.packed) ++
      ljust x.serial_number 16 0) ++ toBytesBig2 x.firmware_version) ++
        x.elwa_number :: List.replicate 37 0 := by
    simp [replyPayload, List.append_assoc]
  have hid : (replyPayload x).take 2 = toBytesBig2 x.device_id.value := by
    rw [g2]
    exact List.take_left' (by simp [toBytesBig2])
  have hdrop2 : (replyPayload x).drop 2 = x.addr.packed ++ (ljust x.serial_number 16 0 ++
      (toBytesBig2 x.firmware_version ++ x.elwa_number :: List.replicate 37 0)) := by
    rw [g2]
    exact List.drop_left' (by simp [toBytesBig2])
  have haddr : ((replyPayload x).drop 2).take 4 = x.addr.packed := by
    rw [hdrop2]
    exact List.take_left' (by simp [IPv4Address.packed])
  have hdrop6 : (replyPayload x).drop 6 = ljust x.serial_number 16 0 ++
      (toBytesBig2 x.firmware_version ++ x.elwa_number :: List.replicate 37 0) := by
    rw [g6]
    exact List.drop_left' (by simp [toBytesBig2, IPv4Address.packed])
  have hserial : ((replyPayload x).drop 6).take 16 = ljust x.serial_number 16 0 := by
    rw [hdrop6]
    exact List.take_left' hpad
  have hdrop22 : (replyPayload x).drop 22 = toBytesBig2 x.firmware_version ++
      x.elwa_number :: List.replicate 37 0 := by
    rw [g22]
    exact List.drop_left' (by simp [toBytesBig2, IPv4Address.packed, hpad])
  have hfwslice : ((replyPayload x).drop 22).take 2 = toBytesBig2 x.firmware_version := by
    rw [hdrop22]
    exact List.take_left' (by simp [toBytesBig2])
  have hdrop24 : (replyPayload x).drop 24 = x.elwa_number :: List.replicate 37 0 := by
    rw [g24]
    exact List.drop_left' (by simp [toBytesBig2, IPv4Address.packed, hpad])
  have hpadall : (ljust x.serial_number 16 0).all (· < 128) = true := by
    rw [ljust]
    simp only [List.all_append, hser, Bool.true_and]
    simp [List.all_eq_true, List.mem_replicate]
  rw [DiscoveryReply.decode]
  rw [if_neg (by rw [hcons]; simp [hplen, DiscoveryReply.LENGTH])]
  simp only [DiscoveryReply.LENGTH, hcons, List.take_succ_cons, List.take_zero,
    List.drop_succ_cons, List.drop_zero]
  have hfrom : fromBytesLittle2 [crc16 (replyPayload x) % 256, crc16 (replyPayload x) / 256] =
      crc16 (replyPayload x) := by
    simp [fromBytesLittle2]
    omega
  rw [hfrom, if_neg (by simp), hserial, if_neg (by simp [hpadall]), hid, fromBig2_toBig2,
    fromValue_value]
  rw [haddr, hfwslice, hdrop24]
  have hstripped : rstripZeros (ljust x.serial_number 16 0) = x.serial_number := by
    rw [ljust, rstripZeros_append_zeros, hstrip]
  rw [hstripped, fromBig2_toBig2]
  simp [bytesToIPv4, IPv4Address.packed]

/-- The buffer built by `DiscoveryReply.encode` before the CRC is
written, for an arbitrary (possibly over-long) serial number. -/
def replyBuffer (x : DiscoveryReply) : List Nat :=
  (setSlice (setSlice (setSlice (setSlice (List.replicate DiscoveryReply.LENGTH 0) 2 4
    (toBytesBig2 x.device_id.value)) 4 8 x.addr.packed) 8 24
    (ljust x.serial_number 16 0)) 24 26 (toBytesBig2 x.firmware_version)).set 26 x.elwa_number

/-- The frame returned by `DiscoveryReply.encode` once the guards have
passed: the buffer with the CRC of its bytes `2..` written over its
first two bytes. -/
def replyFrame (x : DiscoveryReply) : List Nat :=
  setSlice (replyBuffer x) 0 2 (toBytesLittle2 (crc16 ((replyBuffer x).drop 2)))

lemma replyPayload_length (x : DiscoveryReply) (hlen : x.serial_number.length ≤ 16) :
    (replyPayload x).length = 62 := by
  simp [replyPayload, toBytesBig2, IPv4Address.packed, ljust_length hlen]

/-- All payload bytes of an in-range reply fit in 16 bits (they are in
fact bytes). -/
lemma replyPayload_bytes (x : DiscoveryReply) (hser : x.serial_number.all (· < 128) = true)
    (hfw : x.firmware_version < 65536) (hel : x.elwa_number < 256)
    (ha : x.addr.a < 256) (hb : x.addr.b < 256) (hc : x.addr.c < 256) (hd : x.addr.d < 256) :
    ∀ b ∈ replyPayload x, b < 65536 := by
  have hserall : ∀ y ∈ x.serial_number, y < 65536 := by
    intro y hy
    have := List.all_eq_true.mp hser y hy
    simp at this
    omega
  have hval : x.device_id.value < 65536 := by cases x.device_id <;> decide
  rw [replyPayload]
  refine List.forall_mem_append.mpr ⟨List.forall_mem_append.mpr
    ⟨List.forall_mem_append.mpr ⟨List.forall_mem_append.mpr ⟨?_, ?_⟩, ?_⟩, ?_⟩, ?_⟩
  · intro b hmem
    rcases (by simpa [toBytesBig2] using hmem : b = x.device_id.value / 256 ∨
      b = x.device_id.value % 256) with h | h <;> omega
  · intro b hmem
    rcases (by simpa [IPv4Address.packed] using hmem :
      b = x.addr.a ∨ b = x.addr.b ∨ b = x.addr.c ∨ b = x.addr.d) with h | h | h | h <;> omega
  · rw [ljust]
    refine List.forall_mem_append.mpr ⟨hserall, ?_⟩
    intro b hmem
    rw [List.eq_of_mem_replicate hmem]
    omega
  · intro b hmem
    rcases (by simpa [toBytesBig2] using hmem : b = x.firmware_version / 256 ∨
      b = x.firmware_version % 256) with h | h <;> omega
  · intro b hmem
    rcases (by simpa using hmem : b = x.elwa_number ∨ b ∈ List.replicate 37 0) with h | h
    · omega
    · rw [List.eq_of_mem_replicate h]
      omega

/-! ## Capability model (`mypv/acthor/_features.py`) -/

/-- The `ControlFirmwareVersion` dataclass (fields are 16-bit register
values). -/
structure ControlFirmwareVersion where
  version : Nat
  sub_version : Nat
  deriving DecidableEq, Repr

/-- The ordering generated by `dataclass(order=True)`: lexicographic on
`(version, sub_version)`. `lexLe a b` is Python's `a <= b`. -/
def ControlFirmwareVersion.lexLe (a b : ControlFirmwareVersion) : Bool :=
  decide (a.version < b.version ∨ (a.version = b.version ∧ a.sub_version ≤ b.sub_version))

/-- The `DeviceFeatures` dataclass. -/
structure DeviceFeatures where
  readable_registers : Nat
  temperature_sensors : Nat
  water_heating_units : Nat
  has_load_state_outputs : Bool
  has_three_phases : Bool
  has_max_power_abs : Bool
  has_power_outputs : Bool
  has_power_with_relays : Bool
  has_device_powers : Bool
  has_pwm_out : Bool
  has_meter_power_32 : Bool
  deriving DecidableEq, Repr

/-- The class constant `Registers.RANGE`: in the source revision under
verification it is the tuple `(1000, 1088 + 1)` (not a `range` object). -/
def Registers.RANGE : Nat × Nat := (1000, 1088 + 1)

/-- Python attribute access `t.stop` on a `tuple`: tuples have no `stop`
attribute, so this raises `AttributeError`. (`_features.py` evaluates
`Registers.RANGE.stop` although `_registers.py` defines `RANGE` as a
tuple; the rest of the code indexes it as `RANGE[0]` / `RANGE[1]`.) -/
def tupleStop (_ : Nat × Nat) : Except PyError Nat := .error .attributeError

/-- Python attribute access `t.start` on a `tuple`: raises
`AttributeError`, as for `tupleStop`. -/
def tupleStart (_ : Nat × Nat) : Except PyError Nat := .error .attributeError

/-- The classmethod `DeviceFeatures._build`. Its first statement
evaluates `Registers.RANGE.stop - Registers.RANGE.start`; the remaining
fields follow the source's firmware-threshold comparisons. -/
def DeviceFeatures.build (fw_version : ControlFirmwareVersion) (is_9s : Bool) :
    Except PyError DeviceFeatures := do
  let stop ← tupleStop Registers.RANGE
  let start ← tupleStart Registers.RANGE
  let readable_registers := stop - start
  let readable_registers := if fw_version.version = 101 then 81 else readable_registers
  pure
    { readable_registers
      temperature_sensors := 4
      water_heating_units := 1
      has_load_state_outputs := ControlFirmwareVersion.lexLe ⟨202, 1⟩ fw_version
      has_three_phases := is_9s
      has_max_power_abs := ControlFirmwareVersion.lexLe ⟨102, 5⟩ fw_version
      has_power_outputs := is_9s
      has_power_with_relays := is_9s
      has_device_powers := ControlFirmwareVersion.lexLe ⟨203, 3⟩ fw_version
      has_pwm_out := ControlFirmwareVersion.lexLe ⟨205, 0⟩ fw_version
      has_meter_power_32 := ControlFirmwareVersion.lexLe ⟨210, 2⟩ fw_version }

/-- The classmethod `DeviceFeatures.all`, which also evaluates
`Registers.RANGE.stop - Registers.RANGE.start` for `readable_registers`. -/
def DeviceFeatures.all : Except PyError DeviceFeatures := do
  let stop ← tupleStop Registers.RANGE
  let start ← tupleStart Registers.RANGE
  pure
    { readable_registers := stop - start
      temperature_sensors := 8
      water_heating_units := 3
      has_load_state_outputs := true
      has_three_phases := true
      has_max_power_abs := true
      has_power_outputs := true
      has_power_with_relays := true
      has_device_powers := true
      has_pwm_out := true
      has_meter_power_32 := true }

/-! ## Register store (`mypv/acthor/_registers.py`) -/

/-- The `Registers` object: the capability set passed to `__init__` and
the backing value array. -/
structure Registers where
  features : DeviceFeatures
  values : List Nat
  deriving DecidableEq, Repr

/-- The constructor `Registers.__init__`: `[0] * (RANGE[1] - RANGE[0])`. -/
def Registers.init (features : DeviceFeatures) : Registers :=
  ⟨features, List.replicate (Registers.RANGE.2 - Registers.RANGE.1) 0⟩

/-- The method `Registers.set_values`: raise `ValueError` when the given
list's length differs from the current array's, otherwise rebind the
array to the given list. -/
def Registers.set_values (r : Registers) (values : List Nat) : Except PyError Registers :=
  if values.length ≠ r.values.length then .error .valueError
  else .ok { r with values }

/-! Python slice extraction `l[start:stop:step]` for non-negative
`start`/`stop` bounds (the translated offsets are non-negative), after
CPython's `PySlice_AdjustIndices` clamping. -/

/-- Clamped start index of a slice (non-negative inputs). -/
def pySliceStart (length : Nat) (step : Int) : Option Nat → Int
  | none => if step < 0 then (length : Int) - 1 else 0
  | some s =>
      if (length : Int) ≤ (s : Int) then (if step < 0 then (length : Int) - 1 else length)
      else s

/-- Clamped stop index of a slice (non-negative inputs). -/
def pySliceStop (length : Nat) (step : Int) : Option Nat → Int
  | none => if step < 0 then -1 else length
  | some t =>
      if (length : Int) ≤ (t : Int) then (if step < 0 then (length : Int) - 1 else length)
      else t

/-- Number of elements selected by a clamped slice. -/
def pySliceCount (start stop step : Int) : Nat :=
  if 0 < step then ((stop - start).toNat + step.toNat - 1) / step.toNat
  else ((start - stop).toNat + (-step).toNat - 1) / (-step).toNat

/-- Python `l[start:stop:step]` (for a non-zero `step`). -/
def pySlice (l : List Nat) (start stop : Option Nat) (step : Int) : List Nat :=
  let st := pySliceStart l.length step start
  let sp := pySliceStop l.length step stop
  (List.range (pySliceCount st sp step)).map fun j => l.getD (st + j * step).toNat 0

/-- The `int` overload of `Registers.__getitem__`: bounds check against
`RANGE`, then a read at the store-relative offset. -/
def Registers.getItemInt (r : Registers) (address : Int) : Except PyError Nat :=
  if (Registers.RANGE.1 : Int) ≤ address ∧ address < (Registers.RANGE.2 : Int) then
    .ok (r.values.getD (address - (Registers.RANGE.1 : Int)).toNat 0)
  else .error .indexError

/-- The final statement of the `slice` overload of
`Registers.__getitem__`: `self._values[start:stop:address.step]`, where
Python slicing raises `ValueError` on a zero step. -/
def Registers.getItemSliceRead (r : Registers) (s t : Option Nat) (step : Option Int) :
    Except PyError (List Nat) :=
  let st := step.getD 1
  if st = 0 then .error .valueError
  else .ok (pySlice r.values s t st)

/-- The stop check of the `slice` overload of `Registers.__getitem__`: a
non-`None` stop must only satisfy `range_start <= stop` — there is no
upper check — and is translated to a store-relative offset. -/
def Registers.getItemSliceCheckStop (r : Registers) (s : Option Nat) (stop step : Option Int) :
    Except PyError (List Nat) :=
  match stop with
  | none => Registers.getItemSliceRead r s none step
  | some a =>
      if (Registers.RANGE.1 : Int) ≤ a then
        Registers.getItemSliceRead r s (some (a - (Registers.RANGE.1 : Int)).toNat) step
      else .error .indexError

/-- The `slice` overload of `Registers.__getitem__`: a non-`None` start
must lie in `[RANGE[0], RANGE[1])` (else `IndexError`), then the stop
check, then the slice read. -/
def Registers.getItemSlice (r : Registers) (start stop step : Option Int) :
    Except PyError (List Nat) :=
  match start with
  | none => Registers.getItemSliceCheckStop r none stop step
  | some a =>
      if (Registers.RANGE.1 : Int) ≤ a ∧ a < (Registers.RANGE.2 : Int) then
        Registers.getItemSliceCheckStop r (some (a - (Registers.RANGE.1 : Int)).toNat) stop step
      else .error .indexError

/-- The property `Registers.frequency`: the source multiplies the raw
register at offset 64 by `1e6` (a Python float operation, exact at these
magnitudes, modelled over `ℚ`). -/
def Registers.frequency (r : Registers) : ℚ := (r.values.getD 64 0 : ℚ) * 1000000

/-- The milli-hertz reading documented for register 1064 converted to
hertz, the conversion the register documentation calls for (`1e-3`). -/
def storedMilliHertzAsHertz (r : Registers) : ℚ := (r.values.getD 64 0 : ℚ) / 1000

/-- A directly constructed `DeviceFeatures` value (the dataclass
constructor itself is usable even though both classmethod constructors
raise), used as a concrete store capability set in tests below. -/
def sampleFeatures : DeviceFeatures :=
  { readable_registers := 81
    temperature_sensors := 4
    water_heating_units := 1
    has_load_state_outputs := false
    has_three_phases := false
    has_max_power_abs := false
    has_power_outputs := false
    has_power_with_relays := false
    has_device_powers := false
    has_pwm_out := false
    has_meter_power_32 := false }

/-! ## Claims -/

/-- C9: `DiscoveryRequest(device_id=AC_THOR).encode()` is exactly the
32-byte frame `cb7a 4e84 "AC-THOR"` padded with NUL bytes: CRC `0x7acb`
little-endian at offset 0, id `0x4E84` big-endian at offset 2, ASCII
`AC-THOR` at offset 4, zeros to byte 32. -/
theorem C9_encode_request_golden :
    DiscoveryRequest.encode ⟨.AC_THOR⟩ =
      [0xcb, 0x7a, 0x4e, 0x84, 0x41, 0x43, 0x2d, 0x54, 0x48, 0x4f, 0x52, 0, 0, 0, 0, 0,
        0, 0, 0, 0, 0, 0, 0, 0, 0, 0, 0, 0, 0, 0, 0, 0] := by
  decide

/-- C1 (code bug): the monotonicity claim quantifies over the capability
flags produced by `DeviceFeatures._build`, but `_build` never returns:
its first statement reads the attributes `Registers.RANGE.stop` and
`.start` of a tuple, raising `AttributeError` for every firmware
version. Evaluations at the claim's version pair `(203,3) <= (205,0)`. -/
theorem C1_build_always_raises :
    DeviceFeatures.build ⟨203, 3⟩ false = .error .attributeError ∧
      DeviceFeatures.build ⟨205, 0⟩ false = .error .attributeError :=
  ⟨rfl, rfl⟩

/-- C8 (code bug): `_build` is claimed to return `readable_registers`
81 or 89, but it raises `AttributeError` on every input (tuple attribute
access `Registers.RANGE.stop`); evaluated at a major-101 firmware and at
a newer one. -/
theorem C8_readable_registers_raises :
    DeviceFeatures.build ⟨101, 3⟩ false = .error .attributeError ∧
      DeviceFeatures.build ⟨210, 2⟩ true = .error .attributeError :=
  ⟨rfl, rfl⟩

/-- C7 (code bug): both capability constructors the claim relies on,
`DeviceFeatures.all()` and `DeviceFeatures._build` for old firmware,
raise `AttributeError` (tuple attribute access `Registers.RANGE.stop`),
so neither register store required by the claim can be built. -/
theorem C7_feature_constructors_raise :
    DeviceFeatures.all = .error .attributeError ∧
      DeviceFeatures.build ⟨101, 0⟩ false = .error .attributeError :=
  ⟨rfl, rfl⟩

/-- C5 (code bug): with 49994 (milli-hertz, per the register comment)
stored at offset 64, `Registers.frequency` returns `49994 * 1e6`
("49.994 GHz"), not the 49.994 Hz that the documented milli-hertz unit
(scaling by `1e-3`) yields; the two disagree. -/
theorem C5_frequency_scaling_defect :
    Registers.frequency ⟨sampleFeatures, (List.replicate 89 0).set 64 49994⟩ = 49994000000 ∧
      storedMilliHertzAsHertz ⟨sampleFeatures, (List.replicate 89 0).set 64 49994⟩ =
        49994 / 1000 ∧
      (49994000000 : ℚ) ≠ 49994 / 1000 := by
  have h : ((List.replicate 89 0).set 64 49994).getD 64 0 = 49994 := by decide
  refine ⟨?_, ?_, by norm_num⟩
  · rw [Registers.frequency, h]; norm_num
  · rw [storedMilliHertzAsHertz, h]; norm_num

/-- C4: `Registers.set_values` fails with the length-mismatch error
exactly when the new list's length differs from the backing array's
(89 for a freshly constructed store), leaves the store untouched on
failure (the embedding returns no new state on `.error`), and replaces
the array wholesale on success. -/
theorem C4_set_values_length_check :
    ∀ (f : DeviceFeatures) (r : Registers) (values : List Nat),
      (Registers.init f).values.length = 89 ∧
      Registers.set_values r values =
        (if values.length = r.values.length then .ok { r with values } else .error .valueError) := by
  intro f r values
  constructor
  · simp [Registers.init, Registers.RANGE]
  · by_cases h : values.length = r.values.length <;> simp [Registers.set_values, h]

/-- Error characterization of the slice-read stage: it only fails (with
`ValueError`) on an explicit zero step. -/
lemma getItemSliceRead_error_iff (r : Registers) (s t : Option Nat) (step : Option Int) :
    (∃ e, Registers.getItemSliceRead r s t step = .error e) ↔ step = some 0 := by
  rcases step with _ | v
  · simp [Registers.getItemSliceRead, Option.getD]
  · rw [Registers.getItemSliceRead]
    by_cases h : v = (0 : Int) <;> simp [Option.getD, h]

/-- Error characterization of the stop check plus the read: failure iff
the stop is an explicit address below the range start, or the step is
zero. A stop above the range end is accepted. -/
lemma getItemSliceCheckStop_error_iff (r : Registers) (s : Option Nat) (stop step : Option Int) :
    (∃ e, Registers.getItemSliceCheckStop r s stop step = .error e) ↔
      ((∃ t, stop = some t ∧ t < 1000) ∨ step = some 0) := by
  rcases stop with _ | a
  · simp [Registers.getItemSliceCheckStop, getItemSliceRead_error_iff]
  · rw [Registers.getItemSliceCheckStop]
    split_ifs with h
    · simp only [Registers.RANGE] at h
      simp only [getItemSliceRead_error_iff, Option.some.injEq]
      constructor
      · intro hh
        exact Or.inr hh
      · rintro (⟨t, rfl, ht⟩ | hs)
        · omega
        · exact hs
    · simp only [Registers.RANGE] at h
      simp only [Option.some.injEq]
      constructor
      · intro _
        exact Or.inl ⟨a, rfl, by omega⟩
      · intro _
        exact ⟨.indexError, rfl⟩

/-- Error characterization of the full slice overload of
`Registers.__getitem__`. -/
lemma getItemSlice_error_iff (r : Registers) (start stop step : Option Int) :
    (∃ e, Registers.getItemSlice r start stop step = .error e) ↔
      ((∃ s, start = some s ∧ (s < 1000 ∨ 1089 ≤ s)) ∨
        (∃ t, stop = some t ∧ t < 1000) ∨ step = some 0) := by
  rcases start with _ | a
  · simp [Registers.getItemSlice, getItemSliceCheckStop_error_iff]
  · rw [Registers.getItemSlice]
    split_ifs with h
    · simp only [Registers.RANGE] at h
      simp only [getItemSliceCheckStop_error_iff, Option.some.injEq]
      constructor
      · intro hh
        exact Or.inr hh
      · rintro (⟨s, rfl, hs⟩ | hh)
        · omega
        · exact hh
    · simp only [Registers.RANGE] at h
      simp only [Option.some.injEq]
      constructor
      · intro _
        exact Or.inl ⟨a, rfl, by omega⟩
      · intro _
        exact ⟨.indexError, rfl⟩

/-- C6 counterexample: a slice whose stop (2000) lies far beyond the
register range is not rejected — the claim says it must raise — but is
clamped by Python slicing: the whole 89-register array is returned. -/
theorem C6_counterexample_large_stop_allowed :
    Registers.getItemSlice (Registers.init sampleFeatures) (some 1000) (some 2000) none =
      .ok (List.replicate 89 0) := by
  decide

/-- C6 (amended): integer access fails exactly outside `[1000, 1089)`;
a slice fails exactly when its start is explicit and outside
`[1000, 1089)`, or its stop is explicit and below 1000 (a stop of 1089
or more is accepted and clamps), or its step is explicitly zero. -/
theorem C6_raw_access_error_characterization :
    ∀ (r : Registers) (start stop step : Option Int) (a : Int),
      ((∃ e, Registers.getItemInt r a = .error e) ↔ (a < 1000 ∨ 1089 ≤ a)) ∧
      ((∃ e, Registers.getItemSlice r start stop step = .error e) ↔
        ((∃ s, start = some s ∧ (s < 1000 ∨ 1089 ≤ s)) ∨
          (∃ t, stop = some t ∧ t < 1000) ∨ step = some 0)) := by
  intro r start stop step a
  refine ⟨?_, getItemSlice_error_iff r start stop step⟩
  rw [Registers.getItemInt]
  split_ifs with h
  · simp only [Registers.RANGE] at h
    constructor
    · rintro ⟨e, he⟩
      simp at he
    · intro hcon
      exfalso
      omega
  · simp only [Registers.RANGE] at h
    constructor
    · intro _
      omega
    · intro _
      exact ⟨.indexError, rfl⟩

/-- C2: round-trip of the discovery codec. Every request round-trips;
every reply with in-range fields (known device id, ASCII serial of at
most 16 characters with no trailing NULs, 16-bit firmware version,
8-bit elwa number) encodes successfully and decodes back to itself. -/
theorem C2_roundtrip_codec :
    (∀ id : DeviceIdentification,
      DiscoveryRequest.decode (DiscoveryRequest.encode ⟨id⟩) = .ok ⟨id⟩) ∧
    (∀ x : DiscoveryReply, x.serial_number.all (· < 128) = true →
      x.serial_number.length ≤ 16 → rstripZeros x.serial_number = x.serial_number →
      x.firmware_version < 65536 → x.elwa_number < 256 →
      ∃ frame, DiscoveryReply.encode x = .ok frame ∧ DiscoveryReply.decode frame = .ok x) := by
  constructor
  · intro id
    cases id <;> decide
  · intro x hser hlen hstrip hfw hel
    exact ⟨_, encodeReply_ok x hser hlen hfw hel, decodeReply_frame x hser hlen hstrip⟩

/-- Witness for C2 at the reply `AC_THOR / 127.0.0.1 / "hello" / 10 / 1`. -/
theorem C2_roundtrip_codec_witness :
    ∃ frame,
      DiscoveryReply.encode
          ⟨.AC_THOR, ⟨127, 0, 0, 1⟩, [104, 101, 108, 108, 111], 10, 1⟩ = .ok frame ∧
        DiscoveryReply.decode frame =
          .ok ⟨.AC_THOR, ⟨127, 0, 0, 1⟩, [104, 101, 108, 108, 111], 10, 1⟩ :=
  C2_roundtrip_codec.2 ⟨.AC_THOR, ⟨127, 0, 0, 1⟩, [104, 101, 108, 108, 111], 10, 1⟩
    (by decide) (by decide) (by decide) (by decide) (by decide)

/-- C3: flipping any single bit outside the 2-byte CRC field of a
validly encoded frame makes the corresponding decode fail with the
checksum-mismatch error (the recomputed CRC over bytes `2..` disagrees
with the stored little-endian CRC at offset 0). -/
theorem C3_single_bit_flip_rejected :
    (∀ (id : DeviceIdentification) (k : Nat), 16 ≤ k → k < 256 →
      DiscoveryRequest.decode (flipBit (DiscoveryRequest.encode ⟨id⟩) k) =
        .error .checksumMismatch) ∧
    (∀ (x : DiscoveryReply) (k : Nat), x.serial_number.all (· < 128) = true →
      x.serial_number.length ≤ 16 → x.firmware_version < 65536 → x.elwa_number < 256 →
      x.addr.a < 256 → x.addr.b < 256 → x.addr.c < 256 → x.addr.d < 256 →
      16 ≤ k → k < 512 →
      (DiscoveryReply.encode x).map (fun frame => DiscoveryReply.decode (flipBit frame k)) =
        .ok (.error .checksumMismatch)) := by
  constructor
  · exact fun id k hk hk2 => decodeRequest_flip id k hk hk2
  · intro x k hser hlen hfw hel ha hb hc hd hk hk2
    rw [encodeReply_ok x hser hlen hfw hel]
    have hbytes := replyPayload_bytes x hser hfw hel ha hb hc hd
    have hplen := replyPayload_length x hlen
    have hcore := decode_flip_core (replyPayload x) k hbytes hk (by omega)
    simp only [Except.map]
    simp only [DiscoveryReply.decode, DiscoveryReply.LENGTH]
    rw [if_neg (by rw [hcore.2, hplen]; decide), if_pos (Ne.symm hcore.1)]

/-- Witness for C3: a request frame with bit 16 flipped and a reply
frame with bit 100 flipped are both rejected with the
checksum-mismatch error. -/
theorem C3_single_bit_flip_rejected_witness :
    DiscoveryRequest.decode (flipBit (DiscoveryRequest.encode ⟨.AC_THOR⟩) 16) =
      .error .checksumMismatch ∧
    (DiscoveryReply.encode ⟨.AC_THOR, ⟨127, 0, 0, 1⟩, [104, 101, 108, 108, 111], 10, 1⟩).map
        (fun frame => DiscoveryReply.decode (flipBit frame 100)) =
      .ok (.error .checksumMismatch) :=
  ⟨C3_single_bit_flip_rejected.1 .AC_THOR 16 (by decide) (by decide),
    C3_single_bit_flip_rejected.2 ⟨.AC_THOR, ⟨127, 0, 0, 1⟩, [104, 101, 108, 108, 111], 10, 1⟩
      100 (by decide) (by decide) (by decide) (by decide) (by decide) (by decide) (by decide)
      (by decide) (by decide) (by decide)⟩

/-- C10: for in-range scalar fields and an ASCII serial number,
`DiscoveryReply.encode` always succeeds and returns a frame of length
`48 + max 16 len(serial)`; the frame has the nominal length 64 exactly
when the serial is at most 16 bytes, and a longer serial silently grows
the frame (the slice assignment `buf[8:24] = ...` enlarges the buffer)
rather than raising or truncating. -/
theorem C10_encode_reply_length :
    ∀ x : DiscoveryReply, x.serial_number.all (· < 128) = true →
      x.firmware_version < 65536 → x.elwa_number < 256 →
      ∃ frame, DiscoveryReply.encode x = .ok frame ∧
        frame.length = 48 + max 16 x.serial_number.length ∧
        (frame.length = 64 ↔ x.serial_number.length ≤ 16) := by
  intro x hser hfw hel
  refine ⟨replyFrame x, ?_, ?_, ?_⟩
  · rw [DiscoveryReply.encode, if_neg (by simp [hser]), if_neg (by omega), if_neg (by omega)]
    rfl
  · simp only [replyFrame, replyBuffer, DiscoveryReply.LENGTH, setSlice_length, List.length_set,
      List.length_append, List.length_replicate, List.length_take, List.length_drop,
      toBytesLittle2, toBytesBig2, IPv4Address.packed, ljust, List.length_cons,
      List.length_nil]
    omega
  · simp only [replyFrame, replyBuffer, DiscoveryReply.LENGTH, setSlice_length, List.length_set,
      List.length_append, List.length_replicate, List.length_take, List.length_drop,
      toBytesLittle2, toBytesBig2, IPv4Address.packed, ljust, List.length_cons,
      List.length_nil]
    omega

/-- Witness for C10 at a 20-character serial number: the frame is 68
bytes long, not 64. -/
theorem C10_encode_reply_length_witness :
    ∃ frame, DiscoveryReply.encode ⟨.AC_THOR, ⟨127, 0, 0, 1⟩,
        [65, 66, 67, 68, 69, 70, 71, 72, 73, 74, 75, 76, 77, 78, 79, 80, 81, 82, 83, 84],
        10, 1⟩ = .ok frame ∧
      frame.length = 48 + max 16 (List.length
        [65, 66, 67, 68, 69, 70, 71, 72, 73, 74, 75, 76, 77, 78, 79, 80, 81, 82, 83, 84]) ∧
      (frame.length = 64 ↔ (List.length
        [65, 66, 67, 68, 69, 70, 71, 72, 73, 74, 75, 76, 77, 78, 79, 80, 81, 82, 83, 84] ≤ 16)) :=
  C10_encode_reply_length ⟨.AC_THOR, ⟨127, 0, 0, 1⟩,
    [65, 66, 67, 68, 69, 70, 71, 72, 73, 74, 75, 76, 77, 78, 79, 80, 81, 82, 83, 84], 10, 1⟩
    (by decide) (by decide) (by decide)
